import Mathlib

/-!
Verification development for the pyss/pyspoc statistical-summary pipeline.

The Python sources are shallowly embedded: Python dicts keyed by object
identity become association lists keyed by numeric identities, mutation
becomes explicit state passing, raised exceptions become Except/Option
values, and numpy arrays become nested lists of integers.  Each definition
carries a doc comment naming the source function and lines it embeds.
-/

set_option autoImplicit false

namespace PyDict

/-- Python dict lookup (d.get(k)) on an association list. -/
def dget {κ : Type} {α : Type} [DecidableEq κ] (m : List (κ × α)) (k : κ) : Option α :=
  match m with
  | [] => none
  | (k2, v) :: rest => if k2 = k then some v else dget rest k

/-- Python dict key assignment (d[k] = v): update in place when the key is
present, append otherwise (insertion order preserved). -/
def dset {κ : Type} {α : Type} [DecidableEq κ] (m : List (κ × α)) (k : κ) (v : α) :
    List (κ × α) :=
  match m with
  | [] => [(k, v)]
  | (k2, v2) :: rest => if k2 = k then (k, v) :: rest else (k2, v2) :: dset rest k v

theorem dget_dset_self {κ α : Type} [DecidableEq κ] (m : List (κ × α)) (k : κ) (v : α) :
    dget (dset m k v) k = some v := by
  induction m with
  | nil => simp [dget, dset]
  | cons e rest ih =>
      by_cases h : e.1 = k
      · simp [dget, dset, h]
      · simp [dget, dset, h, ih]

theorem dget_dset_ne {κ α : Type} [DecidableEq κ] (m : List (κ × α)) (k k2 : κ) (v : α)
    (h : k ≠ k2) : dget (dset m k v) k2 = dget m k2 := by
  induction m with
  | nil => simp [dget, dset, h]
  | cons e rest ih =>
      by_cases he : e.1 = k
      · simp [dget, dset, he, h]
      · by_cases he2 : e.1 = k2
        · simp [dget, dset, he, he2, Ne.symm h]
        · simp [dget, dset, he, he2, ih]

theorem dget_mem {κ α : Type} [DecidableEq κ] (m : List (κ × α)) (k : κ) (v : α)
    (h : dget m k = some v) : (k, v) ∈ m := by
  induction m with
  | nil => simp [dget] at h
  | cons e rest ih =>
      rcases e with ⟨a, b⟩
      by_cases he : a = k
      · subst he
        simp [dget] at h
        subst h
        exact List.mem_cons_self _ _
      · simp [dget, he] at h
        exact List.mem_cons_of_mem _ (ih h)

theorem dget_key_mem {κ α : Type} [DecidableEq κ] (m : List (κ × α)) (k : κ) (v : α)
    (h : dget m k = some v) : k ∈ m.map Prod.fst := by
  have := dget_mem m k v h
  exact List.mem_map.mpr ⟨(k, v), this, rfl⟩

end PyDict

namespace PySS

/-- State of a pyss.statistic.Statistic instance: the private cached-result
slot initialized to None in pyss/statistic.py line 30. -/
structure StatisticState (β : Type) where
  cached_results : Option β
deriving DecidableEq

/-- Statistic.get_result, pyss/statistic.py lines 51-52. -/
def get_result {β : Type} (s : StatisticState β) : Option β :=
  s.cached_results

/-- Statistic.calculate, pyss/statistic.py lines 33-49: return the cached
result when present, otherwise run the subclass compute hook on a deep copy
of the data (deep copying is the identity on the pure values of this
embedding), cache the result, and return it.  The final component counts the
compute invocations the call performed: 0 on a cache hit, 1 on a miss. -/
def calculate {α β : Type} (compute : α → β) (s : StatisticState β) (data : α) :
    β × StatisticState β × Nat :=
  match get_result s with
  | some result => (result, s, 0)
  | none =>
      let result := compute data
      (result, ⟨some result⟩, 1)

/-- Statistic.uncache, pyss/statistic.py lines 54-58 (the include_gc flag
only triggers garbage collection and has no observable effect here). -/
def uncache {β : Type} (_s : StatisticState β) : StatisticState β :=
  ⟨none⟩

end PySS

/-- C1: once a pyss Statistic instance has produced a result for a dataset,
a second calculate call without an intervening uncache returns the identical
cached result both times, invokes the underlying compute exactly once across
the two calls, and leaves that result in the cache. -/
theorem PySS.calculate_twice_cached {α β : Type} (compute : α → β) (d : α)
    (s0 : PySS.StatisticState β) (h : s0.cached_results = none) :
    (PySS.calculate compute (PySS.calculate compute s0 d).2.1 d).1 =
        (PySS.calculate compute s0 d).1 ∧
      (PySS.calculate compute s0 d).2.2 +
        (PySS.calculate compute (PySS.calculate compute s0 d).2.1 d).2.2 = 1 ∧
      (PySS.calculate compute (PySS.calculate compute s0 d).2.1 d).2.1.cached_results =
        some ((PySS.calculate compute s0 d).1) := by
  simp [PySS.calculate, PySS.get_result, h]

/-- C1 witness: the theorem applied to a concrete compute function, dataset
and freshly initialized statistic state. -/
theorem PySS.calculate_twice_cached_witness :
    (PySS.StatisticState.mk (β := Nat) none).cached_results = none ∧
      ((PySS.calculate (fun n : Nat => n + 1)
          (PySS.calculate (fun n : Nat => n + 1) ⟨none⟩ 3).2.1 3).1 =
        (PySS.calculate (fun n : Nat => n + 1) ⟨none⟩ 3).1 ∧
      (PySS.calculate (fun n : Nat => n + 1) ⟨none⟩ 3).2.2 +
        (PySS.calculate (fun n : Nat => n + 1)
          (PySS.calculate (fun n : Nat => n + 1) ⟨none⟩ 3).2.1 3).2.2 = 1 ∧
      (PySS.calculate (fun n : Nat => n + 1)
          (PySS.calculate (fun n : Nat => n + 1) ⟨none⟩ 3).2.1 3).2.1.cached_results =
        some ((PySS.calculate (fun n : Nat => n + 1) ⟨none⟩ 3).1)) :=
  ⟨rfl, PySS.calculate_twice_cached (fun n : Nat => n + 1) 3 ⟨none⟩ rfl⟩

namespace PySS

/-- A 3-D numpy array of shape n x p x t as nested lists indexed i, j, s. -/
abbrev Array3 := List (List (List Int))

/-- A 2-D numpy array as nested lists. -/
abbrev Mat := List (List Int)

/-- The numpy slice data[:, :, s] of an n x p x t array. -/
def timeSlice (data : Array3) (s : Nat) : Mat :=
  data.map (fun row => row.map (fun cell => cell.getD s 0))

/-- data.shape[2] of a rectangular n x p x t array. -/
def timeLength (data : Array3) : Nat :=
  ((data.headD []).headD []).length

/-- DynamicStatistic.calculate, pyss/statistic.py lines 74-91, on 3-D data:
one super().calculate per time step through the shared instance cache slot,
the per-step results stacked along a new trailing axis (the stacked
p x p x t output is represented as the list of its t trailing-axis slices,
so output slice k is element k of the returned list). -/
def dynamicCalculate (compute : Mat → Mat) (s0 : StatisticState Mat) (data : Array3) :
    List Mat × StatisticState Mat :=
  (List.range (timeLength data)).foldl
    (fun acc s =>
      let c := calculate compute acc.2 (timeSlice data s)
      (acc.1 ++ [c.1], c.2.1))
    ([], s0)

end PySS

/-- C4: evaluation of pyss DynamicStatistic.calculate at a concrete 1 x 1 x 3
dataset with the identity base statistic.  Because every super().calculate
after the first hits the instance cache filled by time slice 0, the stacked
output repeats the slice-0 result instead of computing the base statistic on
each time slice, contradicting the claimed (and documented) per-slice
contract. -/
theorem PySS.dynamic_calculate_repeats_first_slice :
    (PySS.dynamicCalculate (fun m => m) ⟨none⟩ [[[1, 2, 3]]]).1 =
        [[[1]], [[1]], [[1]]] ∧
      (PySS.dynamicCalculate (fun m => m) ⟨none⟩ [[[1, 2, 3]]]).1 ≠
        (List.range (PySS.timeLength [[[1, 2, 3]]])).map
          (fun s => PySS.timeSlice [[[1, 2, 3]]] s) := by
  constructor
  · rfl
  · decide

namespace PySpoc

/-- Combined class-level cache state of the pyspoc cached-computation layer:
the dataset-identity-keyed two-level Statistic cache of
pyspoc/statistic.py line 36, the statistic-identity-keyed Reducer cache of
pyss/reducer.py line 18, and each Statistic instance's local cached result
(pyspoc/statistic.py line 39) read by get_result.  Python object identities
are modelled as numeric ids. -/
structure CacheState (β γ : Type) where
  stat_cache : List (Nat × List (Nat × β))
  reducer_cache : List (Nat × List (Nat × γ))
  local_results : List (Nat × β)

/-- Reducer.calculate, pyss/reducer.py lines 23-48: serve a cached reduction
when present, otherwise run the reducer compute hook on a deep copy of the
owning statistic's get_result() value (possibly Python None, hence Option)
and cache it under (statistic identity, reducer identity).  The final
component counts the compute invocations: 0 on a cache hit, 1 on a miss. -/
def Reducer.calculate {β γ : Type} (compute : Option β → γ) (st : CacheState β γ)
    (statId redId : Nat) : γ × CacheState β γ × Nat :=
  match PyDict.dget st.reducer_cache statId with
  | some statResults =>
      match PyDict.dget statResults redId with
      | some result => (result, st, 0)
      | none =>
          let result := compute (PyDict.dget st.local_results statId)
          (result,
            { st with reducer_cache :=
                PyDict.dset st.reducer_cache statId (PyDict.dset statResults redId result) },
            1)
  | none =>
      let result := compute (PyDict.dget st.local_results statId)
      (result,
        { st with reducer_cache := PyDict.dset st.reducer_cache statId [(redId, result)] },
        1)

/-- Reducer.uncache, pyss/reducer.py lines 50-58: reset the statistic's inner
reducer-cache level to an empty dict when it is non-empty (Python
truthiness), otherwise leave the cache untouched. -/
def Reducer.uncache {β γ : Type} (st : CacheState β γ) (statId : Nat) : CacheState β γ :=
  match PyDict.dget st.reducer_cache statId with
  | some statResults =>
      if statResults.isEmpty then st
      else { st with reducer_cache := PyDict.dset st.reducer_cache statId [] }
  | none => st

/-- Statistic.uncache, pyspoc/statistic.py lines 75-86: when the dataset has
a non-empty inner cache level, cascade Reducer.uncache over every statistic
cached for that dataset and then reset the dataset's inner level to an empty
dict. -/
def Statistic.uncache {β γ : Type} (st : CacheState β γ) (datasetId : Nat) : CacheState β γ :=
  match PyDict.dget st.stat_cache datasetId with
  | some datasetResults =>
      if datasetResults.isEmpty then st
      else
        let st2 := datasetResults.foldl (fun acc e => Reducer.uncache acc e.1) st
        { st2 with stat_cache := PyDict.dset st2.stat_cache datasetId [] }
  | none => st

/-- Statistic.calculate, pyspoc/statistic.py lines 42-73: the call begins
with the unconditional self.uncache(dataset) the source currently carries
(its TODO comment), then performs the two-level lookup keyed by dataset
identity and statistic identity, computing on a deep copy of dataset.data
and caching in the hierarchy and locally on a miss.  The final component
counts the compute invocations. -/
def Statistic.calculate {β γ δ : Type} (compute : δ → β) (st : CacheState β γ)
    (datasetId : Nat) (datasetData : δ) (statId : Nat) : β × CacheState β γ × Nat :=
  let st1 := Statistic.uncache st datasetId
  match PyDict.dget st1.stat_cache datasetId with
  | some datasetResults =>
      match PyDict.dget datasetResults statId with
      | some result => (result, st1, 0)
      | none =>
          let result := compute datasetData
          (result,
            { st1 with
                stat_cache :=
                  PyDict.dset st1.stat_cache datasetId (PyDict.dset datasetResults statId result),
                local_results := PyDict.dset st1.local_results statId result },
            1)
  | none =>
      let result := compute datasetData
      (result,
        { st1 with
            stat_cache := PyDict.dset st1.stat_cache datasetId [(statId, result)],
            local_results := PyDict.dset st1.local_results statId result },
        1)

theorem Reducer.uncache_local_results {β γ : Type} (st : CacheState β γ) (k : Nat) :
    (Reducer.uncache st k).local_results = st.local_results := by
  unfold Reducer.uncache
  split
  · split <;> rfl
  · rfl

theorem Reducer.uncache_stat_cache {β γ : Type} (st : CacheState β γ) (k : Nat) :
    (Reducer.uncache st k).stat_cache = st.stat_cache := by
  unfold Reducer.uncache
  split
  · split <;> rfl
  · rfl

theorem Reducer.uncache_dget_ne {β γ : Type} (st : CacheState β γ) (k k2 : Nat) (h : k ≠ k2) :
    PyDict.dget (Reducer.uncache st k).reducer_cache k2 = PyDict.dget st.reducer_cache k2 := by
  unfold Reducer.uncache
  split
  · split
    · rfl
    · exact PyDict.dget_dset_ne _ _ _ _ h
  · rfl

theorem Reducer.uncache_clears {β γ : Type} (st : CacheState β γ) (k : Nat)
    (l : List (Nat × γ)) (hl : PyDict.dget st.reducer_cache k = some l) (hne : l ≠ []) :
    PyDict.dget (Reducer.uncache st k).reducer_cache k = some [] := by
  unfold Reducer.uncache
  rw [hl]
  have hfalse : l.isEmpty = false := by
    cases l with
    | nil => exact absurd rfl hne
    | cons a t => rfl
  simp [hfalse, PyDict.dget_dset_self]

theorem Reducer.uncache_keeps_cleared {β γ : Type} (st : CacheState β γ) (s2 s : Nat)
    (h : PyDict.dget st.reducer_cache s = some []) :
    PyDict.dget (Reducer.uncache st s2).reducer_cache s = some [] := by
  by_cases hk : s2 = s
  · subst hk
    unfold Reducer.uncache
    rw [h]
    simpa using h
  · rw [Reducer.uncache_dget_ne st s2 s hk]
    exact h

end PySpoc

namespace PySpoc

theorem foldl_uncache_local_results {β γ : Type} (L : List (Nat × β)) (st : CacheState β γ) :
    (L.foldl (fun acc e => Reducer.uncache acc e.1) st).local_results = st.local_results := by
  induction L generalizing st with
  | nil => rfl
  | cons e rest ih =>
      rw [List.foldl_cons, ih, Reducer.uncache_local_results]

theorem foldl_uncache_keeps_cleared {β γ : Type} (L : List (Nat × β)) (st : CacheState β γ)
    (s : Nat) (h : PyDict.dget st.reducer_cache s = some []) :
    PyDict.dget ((L.foldl (fun acc e => Reducer.uncache acc e.1) st)).reducer_cache s =
      some [] := by
  induction L generalizing st with
  | nil => exact h
  | cons e rest ih =>
      rw [List.foldl_cons]
      exact ih _ (Reducer.uncache_keeps_cleared st e.1 s h)

theorem foldl_uncache_clears {β γ : Type} (L : List (Nat × β)) (st : CacheState β γ)
    (s : Nat) (l : List (Nat × γ)) (hmem : s ∈ L.map Prod.fst)
    (hl : PyDict.dget st.reducer_cache s = some l) (hne : l ≠ []) :
    PyDict.dget ((L.foldl (fun acc e => Reducer.uncache acc e.1) st)).reducer_cache s =
      some [] := by
  induction L generalizing st with
  | nil => simp at hmem
  | cons e rest ih =>
      rw [List.foldl_cons]
      by_cases he : e.1 = s
      · have hstep : PyDict.dget (Reducer.uncache st e.1).reducer_cache s = some [] := by
          rw [he]
          exact Reducer.uncache_clears st s l hl hne
        exact foldl_uncache_keeps_cleared rest _ s hstep
      · have hkeep : PyDict.dget (Reducer.uncache st e.1).reducer_cache s =
            PyDict.dget st.reducer_cache s :=
          Reducer.uncache_dget_ne st e.1 s he
        have hmem2 : s ∈ rest.map Prod.fst := by
          rw [List.map_cons] at hmem
          rcases List.mem_cons.mp hmem with h1 | h2
          · exact absurd h1.symm he
          · exact h2
        exact ih _ hmem2 (hkeep.trans hl)

theorem Statistic.uncache_eq_of_dget {β γ : Type} (st : CacheState β γ) (d : Nat)
    (m : List (Nat × β)) (hm : PyDict.dget st.stat_cache d = some m) (hne : m ≠ []) :
    Statistic.uncache st d =
      { m.foldl (fun acc e => Reducer.uncache acc e.1) st with
          stat_cache :=
            PyDict.dset (m.foldl (fun acc e => Reducer.uncache acc e.1) st).stat_cache d [] } := by
  unfold Statistic.uncache
  rw [hm]
  have hf : m.isEmpty = false := by
    cases m with
    | nil => exact absurd rfl hne
    | cons a t => rfl
  simp [hf]

theorem Reducer.calculate_miss_of_cleared {β γ : Type} (rcompute : Option β → γ)
    (st : CacheState β γ) (s redId : Nat)
    (h : PyDict.dget st.reducer_cache s = some []) :
    (Reducer.calculate rcompute st s redId).1 =
        rcompute (PyDict.dget st.local_results s) ∧
      (Reducer.calculate rcompute st s redId).2.2 = 1 := by
  unfold Reducer.calculate
  rw [h]
  simp [PyDict.dget]

end PySpoc

/-- C2: after Statistic.uncache(dataset), any reducer's calculate on a
statistic that had been computed and reduced for that dataset takes the
cache-miss path: it invokes the reducer compute hook (exactly once) on the
statistic's current get_result() value instead of returning the
pre-invalidation cached reduction. -/
theorem PySpoc.uncache_forces_reducer_recompute {β γ : Type} (rcompute : Option β → γ)
    (st : PySpoc.CacheState β γ) (d s redId : Nat) (m : List (Nat × β)) (b : β)
    (rm : List (Nat × γ))
    (hm : PyDict.dget st.stat_cache d = some m)
    (hs : PyDict.dget m s = some b)
    (hr : PyDict.dget st.reducer_cache s = some rm)
    (hrm : rm ≠ []) :
    (PySpoc.Reducer.calculate rcompute (PySpoc.Statistic.uncache st d) s redId).2.2 = 1 ∧
      (PySpoc.Reducer.calculate rcompute (PySpoc.Statistic.uncache st d) s redId).1 =
        rcompute (PyDict.dget st.local_results s) := by
  have hmne : m ≠ [] := by
    intro h0
    rw [h0] at hs
    simp [PyDict.dget] at hs
  have hunc := PySpoc.Statistic.uncache_eq_of_dget st d m hm hmne
  have hclear : PyDict.dget (PySpoc.Statistic.uncache st d).reducer_cache s = some [] := by
    rw [hunc]
    exact PySpoc.foldl_uncache_clears m st s rm (PyDict.dget_key_mem m s b hs) hr hrm
  have hloc : (PySpoc.Statistic.uncache st d).local_results = st.local_results := by
    rw [hunc]
    exact PySpoc.foldl_uncache_local_results m st
  obtain ⟨h1, h2⟩ :=
    PySpoc.Reducer.calculate_miss_of_cleared rcompute (PySpoc.Statistic.uncache st d) s redId hclear
  refine ⟨h2, ?_⟩
  rw [h1, hloc]

/-- C2 witness: a state in which statistic 1 was computed for dataset 0 and
reducer 2 holds a cached reduction of statistic 1; the theorem is applied to
it directly. -/
theorem PySpoc.uncache_forces_reducer_recompute_witness :
    (PyDict.dget (PySpoc.CacheState.mk (β := Nat) (γ := Nat)
        [(0, [(1, 5)])] [(1, [(2, 9)])] [(1, 5)]).stat_cache 0 = some [(1, 5)] ∧
      PyDict.dget [(1, (5 : Nat))] 1 = some 5 ∧
      PyDict.dget (PySpoc.CacheState.mk (β := Nat) (γ := Nat)
        [(0, [(1, 5)])] [(1, [(2, 9)])] [(1, 5)]).reducer_cache 1 = some [(2, 9)] ∧
      ([(2, (9 : Nat))] ≠ [])) ∧
      ((PySpoc.Reducer.calculate (fun o => o.getD 0 + 1)
          (PySpoc.Statistic.uncache (PySpoc.CacheState.mk (β := Nat) (γ := Nat)
            [(0, [(1, 5)])] [(1, [(2, 9)])] [(1, 5)]) 0) 1 2).2.2 = 1 ∧
        (PySpoc.Reducer.calculate (fun o => o.getD 0 + 1)
          (PySpoc.Statistic.uncache (PySpoc.CacheState.mk (β := Nat) (γ := Nat)
            [(0, [(1, 5)])] [(1, [(2, 9)])] [(1, 5)]) 0) 1 2).1 =
          (fun (o : Option Nat) => o.getD 0 + 1)
            (PyDict.dget (PySpoc.CacheState.mk (β := Nat) (γ := Nat)
              [(0, [(1, 5)])] [(1, [(2, 9)])] [(1, 5)]).local_results 1)) :=
  ⟨⟨by decide, by decide, by decide, by decide⟩,
    PySpoc.uncache_forces_reducer_recompute (fun o => o.getD 0 + 1)
      (PySpoc.CacheState.mk [(0, [(1, 5)])] [(1, [(2, 9)])] [(1, 5)]) 0 1 2
      [(1, 5)] 5 [(2, 9)] (by decide) (by decide) (by decide) (by decide)⟩

/-- C3: the pyspoc statistic cache is keyed by dataset identity.  Starting
from an empty cache, calculate for dataset d1 followed by calculate for a
distinct dataset d2 with structurally identical contents performs a fresh
compute for d2 (one compute invocation, not a cache hit on d1's entry) and
leaves two distinct cache entries, one under each dataset identity. -/
theorem PySpoc.calculate_distinct_dataset_entries {β γ δ : Type} (compute : δ → β)
    (data : δ) (d1 d2 s : Nat) (h : d1 ≠ d2) :
    (PySpoc.Statistic.calculate (γ := γ) compute
        (PySpoc.Statistic.calculate (γ := γ) compute ⟨[], [], []⟩ d1 data s).2.1
        d2 data s).2.2 = 1 ∧
      PyDict.dget (PySpoc.Statistic.calculate (γ := γ) compute
        (PySpoc.Statistic.calculate (γ := γ) compute ⟨[], [], []⟩ d1 data s).2.1
        d2 data s).2.1.stat_cache d1 = some [(s, compute data)] ∧
      PyDict.dget (PySpoc.Statistic.calculate (γ := γ) compute
        (PySpoc.Statistic.calculate (γ := γ) compute ⟨[], [], []⟩ d1 data s).2.1
        d2 data s).2.1.stat_cache d2 = some [(s, compute data)] := by
  simp [PySpoc.Statistic.calculate, PySpoc.Statistic.uncache, PyDict.dget, PyDict.dset,
    h, Ne.symm h]

/-- C3 witness: the theorem applied to a concrete compute function and the
distinct dataset identities 0 and 1 sharing the same contents. -/
theorem PySpoc.calculate_distinct_dataset_entries_witness :
    (0 : Nat) ≠ 1 ∧
      ((PySpoc.Statistic.calculate (γ := Nat) (fun n : Nat => n * 2)
          (PySpoc.Statistic.calculate (γ := Nat) (fun n : Nat => n * 2)
            ⟨[], [], []⟩ 0 21 5).2.1 1 21 5).2.2 = 1 ∧
        PyDict.dget (PySpoc.Statistic.calculate (γ := Nat) (fun n : Nat => n * 2)
          (PySpoc.Statistic.calculate (γ := Nat) (fun n : Nat => n * 2)
            ⟨[], [], []⟩ 0 21 5).2.1 1 21 5).2.1.stat_cache 0 =
          some [(5, (fun n : Nat => n * 2) 21)] ∧
        PyDict.dget (PySpoc.Statistic.calculate (γ := Nat) (fun n : Nat => n * 2)
          (PySpoc.Statistic.calculate (γ := Nat) (fun n : Nat => n * 2)
            ⟨[], [], []⟩ 0 21 5).2.1 1 21 5).2.1.stat_cache 1 =
          some [(5, (fun n : Nat => n * 2) 21)]) :=
  ⟨by decide,
    PySpoc.calculate_distinct_dataset_entries (fun n : Nat => n * 2) 21 0 1 5 (by decide)⟩

namespace Config

/-- One token of the anchored regex that Config.__add_reducer_statistic_filters
builds (pyss/config.py line 787): re.escape turns every pattern character
into a literal, and the escaped star is then replaced by the any-sequence
wildcard. -/
inductive RegexToken where
  | lit (c : Char)
  | anySeq
deriving DecidableEq

/-- Conversion of one filter pattern into its anchored regex. -/
def toAnchoredRegex (pattern : String) : List RegexToken :=
  pattern.toList.map (fun c => if c = '*' then RegexToken.anySeq else RegexToken.lit c)

/-- Acceptance of the anchored regex with re.match semantics: the regex has
to match some initial segment of the name (re.match anchors at the start
only), the any-sequence token consuming an arbitrary run of characters. -/
def regexAccepts : List RegexToken → List Char → Bool
  | [], _ => true
  | RegexToken.anySeq :: ps, s => s.tails.any (fun ds => regexAccepts ps ds)
  | RegexToken.lit _ :: _, [] => false
  | RegexToken.lit c :: ps, d :: ds => c == d && regexAccepts ps ds

/-- Build-time filter resolution (pyss/config.py lines 784-793): the subset
of currently registered Statistic instance names matched by any pattern of
the filter list.  The Python code accumulates the matches in a set; the set
is represented here as the matching sublist of the registered-name list. -/
def resolvedFilterSet (patterns : List String) (statNames : List String) : List String :=
  statNames.filter (fun nm => patterns.any (fun p => regexAccepts (toAnchoredRegex p) nm.toList))

/-- Validity screen of Config.__process_config_file (pyss/config.py lines
617-625): the build raises ValueError precisely when the Statistics and
Reducers sections are both empty and the ReducedStatistics section is empty
too (an absent or empty section is an empty dict after
__get_config_top_level, modelled by an empty list of entries). -/
def processConfigFileRejects (statsSpec reducersSpec rstatsSpec : List String) : Bool :=
  (statsSpec.isEmpty && reducersSpec.isEmpty) && rstatsSpec.isEmpty

/-- Validity screen of Config.from_archetypes (pyss/config.py lines
166-183): accepted when reduced-statistic archetypes are supplied, or when
statistic and reducer archetypes are both supplied. -/
def fromArchetypesAccepts
    (statisticArchetypes reducerArchetypes reducedStatisticArchetypes : List String) : Bool :=
  !reducedStatisticArchetypes.isEmpty ||
    (!statisticArchetypes.isEmpty && !reducerArchetypes.isEmpty)

/-- Validity condition asserted by the claim, and by the error message of
__process_config_file itself: the configuration is acceptable iff it
supplies at least one Statistic together with at least one Reducer, or at
least one ReducedStatistic. -/
def claimedConfigAccepts (statsSpec reducersSpec rstatsSpec : List String) : Bool :=
  (!statsSpec.isEmpty && !reducersSpec.isEmpty) || !rstatsSpec.isEmpty

/-- Config.__get_full_instantiated_name (pyss/config.py lines 983-985). -/
def fullInstanceName (moduleRef className schemeName : String) : String :=
  moduleRef ++ "." ++ className ++ "." ++ schemeName

/-- Registration step of Config.__add_component (pyss/config.py lines
484-493): a ValueError when the full instance name already exists in the
archetype partition, otherwise insertion of the component under that name. -/
def addComponent {ν : Type} (partition : List (String × ν))
    (moduleRef className schemeName : String) (component : ν) :
    Except String (List (String × ν)) :=
  if (PyDict.dget partition (fullInstanceName moduleRef className schemeName)).isSome then
    Except.error (fullInstanceName moduleRef className schemeName)
  else
    Except.ok (PyDict.dset partition (fullInstanceName moduleRef className schemeName) component)

theorem fullInstanceName_ne_of_scheme_ne (m c : String) {s1 s2 : String} (hs : s1 ≠ s2) :
    fullInstanceName m c s1 ≠ fullInstanceName m c s2 := by
  intro h
  apply hs
  unfold fullInstanceName at h
  have hd := congrArg String.data h
  simp only [String.data_append, List.append_assoc] at hd
  exact String.ext (List.append_cancel_left (List.append_cancel_left
    (List.append_cancel_left (List.append_cancel_left hd))))

end Config

/-- C7: a reducer Statistics filter pattern is converted into an anchored
regex (every literal character escaped, the star matching any character
sequence) and resolved at build time against the registered statistic
instance names; the pattern mod.A.* resolves to exactly the registered names
mod.A.std and mod.A.alt, excluding mod.B.std. -/
theorem Config.filter_pattern_resolution :
    Config.resolvedFilterSet ["mod.A.*"] ["mod.A.std", "mod.B.std", "mod.A.alt"] =
      ["mod.A.std", "mod.A.alt"] := by decide

/-- C8: evaluation of the configuration validity screens at a configuration
supplying Statistics but neither Reducers nor ReducedStatistics.  The claim
(and the error message inside __process_config_file, and the
from_archetypes screen) deems such a configuration invalid, yet
__process_config_file does not reject it: it only rejects when all three
sections are empty. -/
theorem Config.statistics_only_config_not_rejected :
    Config.processConfigFileRejects ["pyss.statistics.basic"] [] [] = false ∧
      Config.claimedConfigAccepts ["pyss.statistics.basic"] [] [] = false ∧
      Config.fromArchetypesAccepts ["basic"] [] [] = false := by decide

/-- C9: registering a component whose module reference, class name and
scheme name coincide with an existing registration raises and leaves the
first registration in place, while registering the same class under a
different scheme name succeeds and yields two independent entries in the
partition. -/
theorem Config.addComponent_duplicate_vs_distinct_scheme {ν : Type}
    (p : List (String × ν)) (m c s1 s2 : String) (v1 v2 w : ν)
    (h1 : PyDict.dget p (Config.fullInstanceName m c s1) = none)
    (h2 : PyDict.dget p (Config.fullInstanceName m c s2) = none)
    (hs : s1 ≠ s2) :
    ∃ p1, Config.addComponent p m c s1 v1 = Except.ok p1 ∧
      Config.addComponent p1 m c s1 w = Except.error (Config.fullInstanceName m c s1) ∧
      PyDict.dget p1 (Config.fullInstanceName m c s1) = some v1 ∧
      ∃ p2, Config.addComponent p1 m c s2 v2 = Except.ok p2 ∧
        PyDict.dget p2 (Config.fullInstanceName m c s1) = some v1 ∧
        PyDict.dget p2 (Config.fullInstanceName m c s2) = some v2 := by
  have hne := Config.fullInstanceName_ne_of_scheme_ne m c hs
  refine ⟨PyDict.dset p (Config.fullInstanceName m c s1) v1, ?_, ?_, ?_, ?_⟩
  · unfold Config.addComponent
    rw [h1]
    rfl
  · unfold Config.addComponent
    rw [PyDict.dget_dset_self]
    rfl
  · exact PyDict.dget_dset_self _ _ _
  · refine ⟨PyDict.dset (PyDict.dset p (Config.fullInstanceName m c s1) v1)
      (Config.fullInstanceName m c s2) v2, ?_, ?_, ?_⟩
    · unfold Config.addComponent
      rw [PyDict.dget_dset_ne _ _ _ _ hne, h2]
      rfl
    · rw [PyDict.dget_dset_ne _ _ _ _ (Ne.symm hne)]
      exact PyDict.dget_dset_self _ _ _
    · exact PyDict.dget_dset_self _ _ _

/-- C9 witness: the theorem applied to an empty partition with the scheme
names std and alt. -/
theorem Config.addComponent_duplicate_vs_distinct_scheme_witness :
    (PyDict.dget ([] : List (String × Nat))
        (Config.fullInstanceName "pyss.statistics.basic" "Covariance" "std") = none ∧
      PyDict.dget ([] : List (String × Nat))
        (Config.fullInstanceName "pyss.statistics.basic" "Covariance" "alt") = none ∧
      ("std" : String) ≠ "alt") ∧
      (∃ p1, Config.addComponent ([] : List (String × Nat))
          "pyss.statistics.basic" "Covariance" "std" 1 = Except.ok p1 ∧
        Config.addComponent p1 "pyss.statistics.basic" "Covariance" "std" 3 =
          Except.error (Config.fullInstanceName "pyss.statistics.basic" "Covariance" "std") ∧
        PyDict.dget p1 (Config.fullInstanceName "pyss.statistics.basic" "Covariance" "std") =
          some 1 ∧
        ∃ p2, Config.addComponent p1 "pyss.statistics.basic" "Covariance" "alt" 2 =
            Except.ok p2 ∧
          PyDict.dget p2 (Config.fullInstanceName "pyss.statistics.basic" "Covariance" "std") =
            some 1 ∧
          PyDict.dget p2 (Config.fullInstanceName "pyss.statistics.basic" "Covariance" "alt") =
            some 2) :=
  ⟨⟨rfl, rfl, by decide⟩,
    Config.addComponent_duplicate_vs_distinct_scheme [] "pyss.statistics.basic" "Covariance"
      "std" "alt" 1 2 3 rfl rfl (by decide)⟩

namespace Base

/-- A Python object as the default-argument machinery observes it: the None
singleton, or some other object tagged numerically. -/
inductive PyObj where
  | pynone
  | obj (n : Nat)
deriving DecidableEq

/-- The fields of Python inspect.getfullargspec used by get_obj_init_args:
positional argument names (self included), the defaults aligned with the
trailing positional arguments, the keyword-only argument names and the
keyword-only defaults dict. -/
structure ArgSpec where
  args : List String
  defaults : List PyObj
  kwonlyargs : List String
  kwonlydefaults : Option (List (String × PyObj))

/-- get_obj_init_args, pyspoc/base.py lines 199-224: required positional
arguments are recorded with value None, optional positional arguments with
their declared default, keyword-only arguments with their declared default
or None when absent; the self entry is removed. -/
def get_obj_init_args (spec : ArgSpec) : List (String × PyObj) :=
  ((spec.args.take (spec.args.length - spec.defaults.length)).map
      (fun a => (a, PyObj.pynone)) ++
    (spec.args.drop (spec.args.length - spec.defaults.length)).zip spec.defaults ++
    spec.kwonlyargs.map (fun a =>
      (a, match spec.kwonlydefaults with
          | some kd => (PyDict.dget kd a).getD PyObj.pynone
          | none => PyObj.pynone))).filter (fun e => e.1 != "self")

/-- The missing-argument collection of Config.__instantiate_component
(pyss/config.py lines 747-753): constructor arguments absent from the
scheme arguments whose recorded default is None. -/
def missingArgs (spec : ArgSpec) (scheme_args : List String) : List String :=
  ((get_obj_init_args spec).filter
    (fun e => !(scheme_args.contains e.1) && e.2 == PyObj.pynone)).map Prod.fst

/-- Config.__instantiate_component (pyss/config.py lines 738-764): raise a
ValueError naming the missing arguments when any are missing, otherwise
instantiate the component with the scheme arguments. -/
def instantiate_component (spec : ArgSpec) (scheme_args : List String) :
    Except (List String) Unit :=
  if (missingArgs spec scheme_args).isEmpty then Except.ok ()
  else Except.error (missingArgs spec scheme_args)

/-- The claim's notion of required constructor arguments: those with no
declared default, self excluded - positional arguments not covered by the
trailing defaults list, and keyword-only arguments absent from the
keyword-only defaults dict. -/
def claimedRequiredArgs (spec : ArgSpec) : List String :=
  (spec.args.take (spec.args.length - spec.defaults.length)).filter (fun a => a != "self") ++
    spec.kwonlyargs.filter (fun a =>
      a != "self" &&
        (match spec.kwonlydefaults with
         | some kd => (PyDict.dget kd a).isNone
         | none => true))

/-- The arguments the code effectively treats as required: positional
arguments with no declared default, positional arguments whose declared
default is None, and keyword-only arguments whose declared default is
absent or None (self excluded). -/
def effectivelyRequiredArgs (spec : ArgSpec) : List String :=
  (spec.args.take (spec.args.length - spec.defaults.length)).filter (fun a => a != "self") ++
    ((((spec.args.drop (spec.args.length - spec.defaults.length)).zip spec.defaults).filter
        (fun e => e.1 != "self" && e.2 == PyObj.pynone)).map Prod.fst) ++
    spec.kwonlyargs.filter (fun a =>
      a != "self" &&
        ((match spec.kwonlydefaults with
          | some kd => (PyDict.dget kd a).getD PyObj.pynone
          | none => PyObj.pynone) == PyObj.pynone))

theorem mapFst_map_pair (l : List String) (f : String → PyObj) :
    ((l.map (fun a => (a, f a))).map Prod.fst) = l := by
  induction l with
  | nil => rfl
  | cons a t ih => simp [ih]

theorem missingArgs_eq (spec : ArgSpec) (scheme_args : List String) :
    missingArgs spec scheme_args =
      (effectivelyRequiredArgs spec).filter (fun a => !(scheme_args.contains a)) := by
  unfold missingArgs get_obj_init_args effectivelyRequiredArgs
  simp only [List.filter_append, List.filter_filter, List.map_append, List.filter_map,
    Function.comp_def]
  congr 1
  congr 1
  · rw [mapFst_map_pair]
    apply List.filter_congr
    intro a _
    cases h1 : a != "self" <;> cases h2 : scheme_args.contains a <;> simp [h1, h2]
  · apply congrArg (List.map Prod.fst)
    apply List.filter_congr
    intro e _
    rcases e with ⟨a, b⟩
    cases h1 : a != "self" <;> cases h2 : scheme_args.contains a <;>
      cases h3 : b == PyObj.pynone <;> simp [h1, h2, h3]
  · rw [mapFst_map_pair]
    apply List.filter_congr
    intro a _
    cases h1 : a != "self" <;> cases h2 : scheme_args.contains a <;>
      cases h3 : ((match spec.kwonlydefaults with
        | some kd => (PyDict.dget kd a).getD PyObj.pynone
        | none => PyObj.pynone) == PyObj.pynone) <;> simp [h1, h2, h3]

end Base

/-- C10 amended: Scheme construction raises, before any instantiation and
naming exactly the absent arguments, precisely when some constructor
argument whose recorded default is None - one with no declared default, or
one whose declared default is the None value - is missing from the merged
scheme arguments; otherwise the component instantiates.  (The original
claim counted an argument with declared default None as optional; the code
cannot distinguish it from an argument with no default.) -/
theorem Base.instantiate_component_requires_none_defaults (spec : Base.ArgSpec)
    (scheme_args : List String) :
    Base.instantiate_component spec scheme_args =
      (if ((Base.effectivelyRequiredArgs spec).filter
            (fun a => !(scheme_args.contains a))).isEmpty
      then Except.ok ()
      else Except.error ((Base.effectivelyRequiredArgs spec).filter
            (fun a => !(scheme_args.contains a)))) := by
  unfold Base.instantiate_component
  rw [Base.missingArgs_eq]

/-- C10 counterexample: a constructor declaring self and one argument x
with declared default None.  The claim's required set is empty, so the
claim asserts instantiation with no scheme arguments succeeds; the code
instead raises naming x, because a declared default of None is treated
exactly like a missing default. -/
theorem Base.default_none_argument_rejected :
    Base.claimedRequiredArgs ⟨["self", "x"], [Base.PyObj.pynone], [], none⟩ = [] ∧
      Base.instantiate_component ⟨["self", "x"], [Base.PyObj.pynone], [], none⟩ [] =
        Except.error ["x"] :=
  ⟨rfl, rfl⟩

namespace Calculator

/-- Behaviour of one configured Statistic during Calculator.compute: its key
in config.statistics, the outcome of stat.calculate(dataset) - none models a
raised exception, some v the computed and cached result, already squeezed to
the value vector that enters the results table (get_result returns the same
value) - and whether the instance is a ReducedStatistic. -/
structure StatRun where
  name : String
  outcome : Option (List Int)
  isReduced : Bool

/-- Behaviour of one configured Reducer: its key in config.reducers, the
value config.get_reducer_filters returns for it (the raw Statistics filter
patterns the configuration stored, or Python None), and the outcome of
reducer.calculate(stat).squeeze() per statistic name, none modelling a
raised exception. -/
structure ReducerRun where
  name : String
  filters : Option (List String)
  outcome : String → Option (List Int)

/-- Behaviour of one configured ReducedStatistic: its key in
config.reduced_statistics and the outcome of rstat.calculate(dataset). -/
structure RStatRun where
  name : String
  outcome : Option (List Int)

/-- The two-level results_dict Calculator.compute builds: statistic name to
reducer name to reduced value vector. -/
abbrev Results := List (String × List (String × List Int))

/-- The Statistics pass of Calculator.compute (pyss/calculator.py lines
149-171): each statistic is calculated inside a try block; on success an
empty result slot is registered under its name, on an exception only a
warning is emitted and no slot is created. -/
def statisticsPass (stats : List StatRun) : Results :=
  stats.foldl
    (fun acc st =>
      match st.outcome with
      | some _ => PyDict.dset acc st.name []
      | none => acc)
    []

/-- The applicable statistic names of one reducer (pyss/calculator.py lines
179-184): every name registered by the Statistics pass when
get_reducer_filters returned None, otherwise the stored raw filter entries
that literally occur among those names. -/
def applicableStatNames (filters : Option (List String)) (statNames : List String) :
    List String :=
  match filters with
  | none => statNames
  | some patterns => patterns.filter (fun p => statNames.contains p)

/-- The dict update results_dict[stat_name][reducer_or_self_name] = value
(pyss/calculator.py lines 194 and 201); a missing outer key raises a
KeyError that the surrounding try block swallows, leaving the dict
unchanged. -/
def storeResult (acc : Results) (sname rname : String) (v : List Int) : Results :=
  match PyDict.dget acc sname with
  | some inner => PyDict.dset acc sname (PyDict.dset inner rname v)
  | none => acc

/-- The body run for one (reducer, statistic name) pair inside its try block
(pyss/calculator.py lines 186-204): a ReducedStatistic stores its own cached
result under the self key and skips reduction; otherwise the reducer is
calculated on the statistic and stored under the reducer name, an exception
leaving the dict unchanged.  (A ReducedStatistic that never computed would
store Python None; that situation cannot arise for names registered by the
Statistics pass under the name-uniqueness invariant, and is modelled as
leaving the dict unchanged.) -/
def reducerStep (stats : List StatRun) (red : ReducerRun) (acc : Results)
    (sname : String) : Results :=
  match PyDict.dget (stats.map (fun st => (st.name, st))) sname with
  | none => acc
  | some st =>
      if st.isReduced then
        match st.outcome with
        | some v => storeResult acc sname "self" v
        | none => acc
      else
        match red.outcome sname with
        | some v => storeResult acc sname red.name v
        | none => acc

/-- The Reducers pass of Calculator.compute (pyss/calculator.py lines
172-207): stat_names is fixed from the results dict before the loop (line
174); each reducer then iterates its applicable statistic names over the
body above. -/
def reducersPass (stats : List StatRun) (reducers : List ReducerRun) (results : Results) :
    Results :=
  reducers.foldl
    (fun acc red =>
      (applicableStatNames red.filters (results.map Prod.fst)).foldl
        (fun acc2 sname => reducerStep stats red acc2 sname)
        acc)
    results

/-- The ReducedStatistics pass of Calculator.compute (pyss/calculator.py
lines 209-232): each ReducedStatistic overwrites its results slot with a
single self entry; an exception leaves the dict unchanged. -/
def reducedStatisticsPass (rstats : List RStatRun) (results : Results) : Results :=
  rstats.foldl
    (fun acc r =>
      match r.outcome with
      | some v => PyDict.dset acc r.name [("self", v)]
      | none => acc)
    results

/-- Calculator.compute (pyss/calculator.py lines 135-236): the Statistics
and Reducers passes run only when statistics are configured; the
ReducedStatistics pass runs afterwards either way. -/
def calculatorCompute (stats : List StatRun) (reducers : List ReducerRun)
    (rstats : List RStatRun) : Results :=
  if stats.isEmpty then reducedStatisticsPass rstats []
  else reducedStatisticsPass rstats (reducersPass stats reducers (statisticsPass stats))

/-- The column labels one results entry and one reduced value vector
contribute to the table (pyss/calculator.py lines 245-252): the statistic
name at the outer level once per element, the reducer name at the inner
level, suffixed with the one-based element index when the vector has more
than one element. -/
def entryColumns (statName : String) (r : String × List Int) : List (String × String) :=
  if r.2.length = 1 then [(statName, r.1)]
  else (List.range r.2.length).map (fun i => (statName, r.1 ++ "_" ++ toString (i + 1)))

/-- The column labels of Calculator._build_results_table (pyss/calculator.py
lines 239-259), in the order the two nested loops emit them. -/
def tableColumns (results : Results) : List (String × String) :=
  (results.map (fun e => (e.2.map (fun r => entryColumns e.1 r)).flatten)).flatten

end Calculator

namespace PyDict

theorem dget_append_of_none {κ α : Type} [DecidableEq κ] (m1 m2 : List (κ × α)) (k : κ)
    (h : dget m1 k = none) : dget (m1 ++ m2) k = dget m2 k := by
  induction m1 with
  | nil => rfl
  | cons e rest ih =>
      by_cases he : e.1 = k
      · simp [dget, he] at h
      · simp [dget, he] at h ⊢
        exact ih h

theorem dset_append_of_fresh {κ α : Type} [DecidableEq κ] (m : List (κ × α)) (k : κ) (v : α)
    (h : dget m k = none) : dset m k v = m ++ [(k, v)] := by
  induction m with
  | nil => rfl
  | cons e rest ih =>
      by_cases he : e.1 = k
      · simp [dget, he] at h
      · simp [dget, he] at h
        simp [dset, he, ih h]

theorem dget_eq_none_iff {κ α : Type} [DecidableEq κ] (m : List (κ × α)) (k : κ) :
    dget m k = none ↔ k ∉ m.map Prod.fst := by
  induction m with
  | nil => simp [dget]
  | cons e rest ih =>
      by_cases he : e.1 = k
      · simp [dget, he, eq_comm]
      · simp [dget, he, ih, Ne.symm he]

theorem keys_dset_of_mem {κ α : Type} [DecidableEq κ] (m : List (κ × α)) (k : κ) (v w : α)
    (h : dget m k = some w) : (dset m k v).map Prod.fst = m.map Prod.fst := by
  induction m with
  | nil => simp [dget] at h
  | cons e rest ih =>
      by_cases he : e.1 = k
      · simp [dset, he]
      · simp [dget, he] at h
        simp [dset, he, ih h]

end PyDict

namespace Calculator

theorem storeResult_keys (acc : Results) (sname rname : String) (v : List Int) :
    (storeResult acc sname rname v).map Prod.fst = acc.map Prod.fst := by
  unfold storeResult
  split
  next inner hinner => exact PyDict.keys_dset_of_mem _ _ _ _ hinner
  next => rfl

theorem storeResult_dget_ne (acc : Results) (sname rname : String) (v : List Int)
    (m : String) (h : sname ≠ m) :
    PyDict.dget (storeResult acc sname rname v) m = PyDict.dget acc m := by
  unfold storeResult
  split
  · exact PyDict.dget_dset_ne _ _ _ _ h
  · rfl

theorem reducerStep_keys (stats : List StatRun) (red : ReducerRun) (acc : Results)
    (sname : String) :
    (reducerStep stats red acc sname).map Prod.fst = acc.map Prod.fst := by
  unfold reducerStep
  split
  · rfl
  · split
    · split
      · exact storeResult_keys _ _ _ _
      · rfl
    · split
      · exact storeResult_keys _ _ _ _
      · rfl

theorem reducerStep_dget_ne (stats : List StatRun) (red : ReducerRun) (acc : Results)
    (sname m : String) (h : sname ≠ m) :
    PyDict.dget (reducerStep stats red acc sname) m = PyDict.dget acc m := by
  unfold reducerStep
  split
  · rfl
  · split
    · split
      · exact storeResult_dget_ne _ _ _ _ _ h
      · rfl
    · split
      · exact storeResult_dget_ne _ _ _ _ _ h
      · rfl

theorem foldl_reducerStep_keys (stats : List StatRun) (red : ReducerRun)
    (names : List String) (acc : Results) :
    ((names.foldl (fun a2 n => reducerStep stats red a2 n) acc).map Prod.fst) =
      acc.map Prod.fst := by
  induction names generalizing acc with
  | nil => rfl
  | cons n rest ih => rw [List.foldl_cons, ih, reducerStep_keys]

theorem foldl_reducerStep_dget_not_mem (stats : List StatRun) (red : ReducerRun)
    (names : List String) (acc : Results) (m : String) (h : m ∉ names) :
    PyDict.dget (names.foldl (fun a2 n => reducerStep stats red a2 n) acc) m =
      PyDict.dget acc m := by
  induction names generalizing acc with
  | nil => rfl
  | cons n rest ih =>
      have hnm : n ≠ m := fun hh => h (hh ▸ List.mem_cons_self n rest)
      rw [List.foldl_cons, ih _ (fun hh => h (List.mem_cons_of_mem _ hh)),
        reducerStep_dget_ne stats red acc n m hnm]

theorem foldl_reducers_keys (stats : List StatRun) (statNames : List String)
    (reducers : List ReducerRun) (acc : Results) :
    ((reducers.foldl (fun a red =>
        (applicableStatNames red.filters statNames).foldl
          (fun a2 n => reducerStep stats red a2 n) a) acc).map Prod.fst) =
      acc.map Prod.fst := by
  induction reducers generalizing acc with
  | nil => rfl
  | cons r rest ih => rw [List.foldl_cons, ih, foldl_reducerStep_keys]

theorem reducersPass_keys (stats : List StatRun) (reducers : List ReducerRun)
    (results : Results) :
    (reducersPass stats reducers results).map Prod.fst = results.map Prod.fst := by
  unfold reducersPass
  exact foldl_reducers_keys stats (results.map Prod.fst) reducers results

end Calculator

namespace Calculator

theorem statisticsPass_go (stats : List StatRun) (acc : Results)
    (hnd : (stats.map StatRun.name).Nodup)
    (hfresh : ∀ st ∈ stats, PyDict.dget acc st.name = none) :
    stats.foldl
        (fun acc2 st =>
          match st.outcome with
          | some _ => PyDict.dset acc2 st.name []
          | none => acc2)
        acc =
      acc ++ (stats.filter (fun st => st.outcome.isSome)).map (fun st => (st.name, [])) := by
  induction stats generalizing acc with
  | nil => simp
  | cons st rest ih =>
      rw [List.map_cons, List.nodup_cons] at hnd
      obtain ⟨hstname, hndr⟩ := hnd
      rw [List.foldl_cons]
      cases ho : st.outcome with
      | none =>
          simp only [ho]
          rw [List.filter_cons_of_neg (by simp [ho]), ih acc hndr
            (fun s hs => hfresh s (List.mem_cons_of_mem _ hs))]
      | some v =>
          simp only [ho]
          have hfr := hfresh st (List.mem_cons_self _ _)
          rw [PyDict.dset_append_of_fresh _ _ _ hfr]
          have hfresh2 : ∀ s ∈ rest, PyDict.dget (acc ++ [(st.name, [])]) s.name = none := by
            intro s hs
            rw [PyDict.dget_append_of_none _ _ _ (hfresh s (List.mem_cons_of_mem _ hs))]
            have hne : st.name ≠ s.name := by
              intro hh
              exact hstname (hh ▸ List.mem_map.mpr ⟨s, hs, rfl⟩)
            simp [PyDict.dget, hne]
          rw [ih _ hndr hfresh2, List.filter_cons_of_pos (by simp [ho]), List.map_cons,
            List.append_assoc]
          rfl

theorem statisticsPass_eq (stats : List StatRun) (hnd : (stats.map StatRun.name).Nodup) :
    statisticsPass stats =
      (stats.filter (fun st => st.outcome.isSome)).map (fun st => (st.name, [])) := by
  unfold statisticsPass
  have := statisticsPass_go stats [] hnd (fun st _ => rfl)
  simpa using this

end Calculator

namespace PyDict

theorem dget_map_pair_of_nodup {A B : Type} (l : List A) (nm : A → String) (f : A → B)
    (hnd : (l.map nm).Nodup) (st : A) (hst : st ∈ l) :
    dget (l.map (fun x => (nm x, f x))) (nm st) = some (f st) := by
  induction l with
  | nil => simp at hst
  | cons x rest ih =>
      rw [List.map_cons, List.nodup_cons] at hnd
      obtain ⟨hx, hndr⟩ := hnd
      rcases List.mem_cons.mp hst with h1 | h2
      · subst h1
        simp [dget]
      · by_cases he : nm x = nm st
        · exact absurd (he ▸ List.mem_map.mpr ⟨st, h2, rfl⟩) hx
        · rw [List.map_cons]
          simp only [dget, he, if_false]
          exact ih hndr h2

end PyDict

namespace Calculator

theorem reducerStep_fills (stats : List StatRun) (red : ReducerRun) (acc : Results)
    (n : String) (st : StatRun) (v : List Int)
    (hst : PyDict.dget (stats.map (fun s => (s.name, s))) n = some st)
    (hred : st.isReduced = false)
    (hv : red.outcome n = some v)
    (hslot : PyDict.dget acc n = some []) :
    PyDict.dget (reducerStep stats red acc n) n = some [(red.name, v)] := by
  unfold reducerStep
  rw [hst]
  simp only [hred, Bool.false_eq_true, if_false]
  rw [hv]
  unfold storeResult
  rw [hslot]
  exact PyDict.dget_dset_self _ _ _

theorem foldl_reducerStep_fills (stats : List StatRun) (red : ReducerRun)
    (names : List String) (acc : Results)
    (hnd : names.Nodup)
    (hslot : ∀ n ∈ names, PyDict.dget acc n = some [])
    (hstat : ∀ n ∈ names, ∃ st : StatRun,
      PyDict.dget (stats.map (fun s => (s.name, s))) n = some st ∧ st.isReduced = false)
    (hout : ∀ n ∈ names, ∃ v, red.outcome n = some v) :
    ∀ n ∈ names, ∃ v, red.outcome n = some v ∧
      PyDict.dget (names.foldl (fun a2 m => reducerStep stats red a2 m) acc) n =
        some [(red.name, v)] := by
  induction names generalizing acc with
  | nil => intro n hn; simp at hn
  | cons n0 rest ih =>
      rw [List.nodup_cons] at hnd
      obtain ⟨hn0rest, hndr⟩ := hnd
      intro n hn
      rw [List.foldl_cons]
      obtain ⟨st0, hst0, hred0⟩ := hstat n0 (List.mem_cons_self _ _)
      obtain ⟨v0, hv0⟩ := hout n0 (List.mem_cons_self _ _)
      have hslot0 := hslot n0 (List.mem_cons_self _ _)
      have hfill0 := reducerStep_fills stats red acc n0 st0 v0 hst0 hred0 hv0 hslot0
      rcases List.mem_cons.mp hn with h1 | h2
      · subst h1
        refine ⟨v0, hv0, ?_⟩
        rw [foldl_reducerStep_dget_not_mem stats red rest _ n hn0rest]
        exact hfill0
      · have hslot2 : ∀ m ∈ rest, PyDict.dget (reducerStep stats red acc n0) m = some [] := by
          intro m hm
          have hne : n0 ≠ m := fun hh => hn0rest (hh ▸ hm)
          rw [reducerStep_dget_ne stats red acc n0 m hne]
          exact hslot m (List.mem_cons_of_mem _ hm)
        exact ih _ hndr hslot2
          (fun m hm => hstat m (List.mem_cons_of_mem _ hm))
          (fun m hm => hout m (List.mem_cons_of_mem _ hm)) n h2

theorem entryColumns_fst (nm : String) (r : String × List Int) (c : String × String)
    (hc : c ∈ entryColumns nm r) : c.1 = nm := by
  unfold entryColumns at hc
  split at hc
  · rcases List.mem_singleton.mp hc with h
    rw [h]
  · rcases List.mem_map.mp hc with ⟨i, _, hi⟩
    rw [← hi]

theorem entryColumns_ne_nil (nm : String) (r : String × List Int) (h : r.2 ≠ []) :
    entryColumns nm r ≠ [] := by
  unfold entryColumns
  split
  · simp
  · next hlen =>
      intro hcontra
      rw [List.map_eq_nil_iff, List.range_eq_nil] at hcontra
      exact h (List.length_eq_zero.mp hcontra)

theorem tableColumns_fst_mem (results : Results) (c : String × String)
    (hc : c ∈ tableColumns results) : c.1 ∈ results.map Prod.fst := by
  unfold tableColumns at hc
  rw [List.mem_flatten] at hc
  obtain ⟨l, hl, hcl⟩ := hc
  rw [List.mem_map] at hl
  obtain ⟨e, he, hel⟩ := hl
  rw [← hel, List.mem_flatten] at hcl
  obtain ⟨l2, hl2, hcl2⟩ := hcl
  rw [List.mem_map] at hl2
  obtain ⟨r, _, hrl⟩ := hl2
  rw [← hrl] at hcl2
  rw [entryColumns_fst e.1 r c hcl2]
  exact List.mem_map.mpr ⟨e, he, rfl⟩

theorem tableColumns_mem_of (results : Results) (e : String × List (String × List Int))
    (r : String × List Int) (c : String × String)
    (he : e ∈ results) (hr : r ∈ e.2) (hc : c ∈ entryColumns e.1 r) :
    c ∈ tableColumns results := by
  unfold tableColumns
  rw [List.mem_flatten]
  refine ⟨(e.2.map (fun r2 => entryColumns e.1 r2)).flatten, List.mem_map.mpr ⟨e, he, rfl⟩, ?_⟩
  rw [List.mem_flatten]
  exact ⟨entryColumns e.1 r, List.mem_map.mpr ⟨r, hr, rfl⟩, hc⟩

end Calculator

namespace Calculator

theorem applicableStatNames_none (statNames : List String) :
    applicableStatNames none statNames = statNames := rfl

end Calculator

/-- C5: when exactly one configured statistic (bad, between the groups pre
and post) raises during compute while its siblings succeed, and a single
filterless reducer succeeds on every surviving statistic with a non-empty
value, Calculator.compute still produces a results table with a column for
every other configured statistic, no column for the failing one, and no
results entry at all under the failing statistic's name. -/
theorem Calculator.failing_statistic_isolated
    (pre post : List Calculator.StatRun) (bad : Calculator.StatRun)
    (red : Calculator.ReducerRun)
    (hsucc : ∀ st ∈ pre ++ post, st.outcome.isSome = true ∧ st.isReduced = false)
    (hbad : bad.outcome = none)
    (hnames : ((pre ++ [bad] ++ post).map Calculator.StatRun.name).Nodup)
    (hfil : red.filters = none)
    (hred : ∀ st ∈ pre ++ post, ∃ v, red.outcome st.name = some v ∧ v ≠ []) :
    (∀ c ∈ Calculator.tableColumns
        (Calculator.calculatorCompute (pre ++ [bad] ++ post) [red] []),
      c.1 ≠ bad.name) ∧
      (∀ st ∈ pre ++ post, ∃ c ∈ Calculator.tableColumns
          (Calculator.calculatorCompute (pre ++ [bad] ++ post) [red] []),
        c.1 = st.name) ∧
      PyDict.dget (Calculator.calculatorCompute (pre ++ [bad] ++ post) [red] [])
        bad.name = none := by
  have hempty : (pre ++ [bad] ++ post).isEmpty = false := by cases pre <;> rfl
  have hfp : pre.filter (fun st => st.outcome.isSome) = pre :=
    List.filter_eq_self.mpr (fun a ha => (hsucc a (List.mem_append_left post ha)).1)
  have hfq : post.filter (fun st => st.outcome.isSome) = post :=
    List.filter_eq_self.mpr (fun a ha => (hsucc a (List.mem_append_right pre ha)).1)
  have hfilter : (pre ++ [bad] ++ post).filter (fun st => st.outcome.isSome) =
      pre ++ post := by
    simp [List.filter_append, hbad, hfp, hfq]
  have hph : Calculator.statisticsPass (pre ++ [bad] ++ post) =
      (pre ++ post).map (fun st => (st.name, [])) := by
    rw [Calculator.statisticsPass_eq _ hnames, hfilter]
  have hK : (((pre ++ post).map
        (fun st => (st.name, ([] : List (String × List Int))))).map Prod.fst) =
      (pre ++ post).map Calculator.StatRun.name := by
    rw [List.map_map]
    rfl
  have hndK : ((pre ++ post).map Calculator.StatRun.name).Nodup := by
    have hsub : List.Sublist (pre ++ post) (pre ++ [bad] ++ post) :=
      List.Sublist.append (List.sublist_append_left pre [bad]) (List.Sublist.refl post)
    exact List.Nodup.sublist (hsub.map _) hnames
  have hnames2 := hnames
  rw [List.map_append, List.map_append] at hnames2
  obtain ⟨h12, hnpost2, hdisj2⟩ := List.nodup_append.mp hnames2
  obtain ⟨hnpre2, hsing, hdisj1⟩ := List.nodup_append.mp h12
  have hbadpre : bad.name ∉ pre.map Calculator.StatRun.name := fun hm => hdisj1 hm (by simp)
  have hbadpost : bad.name ∉ post.map Calculator.StatRun.name := fun hm => hdisj2 (by simp) hm
  have hbadK : bad.name ∉ (pre ++ post).map Calculator.StatRun.name := by
    rw [List.map_append]
    intro hm
    rcases List.mem_append.mp hm with h1 | h2
    · exact hbadpre h1
    · exact hbadpost h2
  have hcc : Calculator.calculatorCompute (pre ++ [bad] ++ post) [red] [] =
      ((pre ++ post).map Calculator.StatRun.name).foldl
        (fun a2 n => Calculator.reducerStep (pre ++ [bad] ++ post) red a2 n)
        ((pre ++ post).map (fun st => (st.name, []))) := by
    unfold Calculator.calculatorCompute
    rw [hempty]
    show Calculator.reducersPass (pre ++ [bad] ++ post) [red]
        (Calculator.statisticsPass (pre ++ [bad] ++ post)) = _
    rw [hph]
    unfold Calculator.reducersPass
    rw [List.foldl_cons, List.foldl_nil, hfil, Calculator.applicableStatNames_none, hK]
  have hslotH : ∀ n ∈ (pre ++ post).map Calculator.StatRun.name,
      PyDict.dget ((pre ++ post).map
        (fun st => (st.name, ([] : List (String × List Int))))) n = some [] := by
    intro n hn
    rcases List.mem_map.mp hn with ⟨st, hst, rfl⟩
    exact PyDict.dget_map_pair_of_nodup (pre ++ post) Calculator.StatRun.name
      (fun _ => []) hndK st hst
  have hstatH : ∀ n ∈ (pre ++ post).map Calculator.StatRun.name,
      ∃ st : Calculator.StatRun,
        PyDict.dget ((pre ++ [bad] ++ post).map (fun s => (s.name, s))) n = some st ∧
          st.isReduced = false := by
    intro n hn
    rcases List.mem_map.mp hn with ⟨st, hst, rfl⟩
    have hstst : st ∈ pre ++ [bad] ++ post := by
      rcases List.mem_append.mp hst with h1 | h2
      · exact List.mem_append_left _ (List.mem_append_left _ h1)
      · exact List.mem_append_right _ h2
    refine ⟨st, ?_, (hsucc st hst).2⟩
    exact PyDict.dget_map_pair_of_nodup (pre ++ [bad] ++ post) Calculator.StatRun.name
      id hnames st hstst
  have houtH : ∀ n ∈ (pre ++ post).map Calculator.StatRun.name,
      ∃ v, red.outcome n = some v := by
    intro n hn
    rcases List.mem_map.mp hn with ⟨st, hst, rfl⟩
    obtain ⟨v, hv, _⟩ := hred st hst
    exact ⟨v, hv⟩
  have hfills := Calculator.foldl_reducerStep_fills (pre ++ [bad] ++ post) red
    ((pre ++ post).map Calculator.StatRun.name)
    ((pre ++ post).map (fun st => (st.name, []))) hndK hslotH hstatH houtH
  have hkeys : (Calculator.calculatorCompute (pre ++ [bad] ++ post) [red] []).map Prod.fst =
      (pre ++ post).map Calculator.StatRun.name := by
    rw [hcc, Calculator.foldl_reducerStep_keys, hK]
  refine ⟨?_, ?_, ?_⟩
  · intro c hc
    have hcm := Calculator.tableColumns_fst_mem _ c hc
    rw [hkeys] at hcm
    intro hcontra
    rw [hcontra] at hcm
    exact hbadK hcm
  · intro st hst
    have hn : st.name ∈ (pre ++ post).map Calculator.StatRun.name :=
      List.mem_map.mpr ⟨st, hst, rfl⟩
    obtain ⟨v, hv, hdget⟩ := hfills st.name hn
    rw [← hcc] at hdget
    obtain ⟨v0, hv0, hv0ne⟩ := hred st hst
    have hveq : v = v0 := by
      rw [hv] at hv0
      exact Option.some.inj hv0
    have hvne : v ≠ [] := by
      rw [hveq]
      exact hv0ne
    have hmem : (st.name, [(red.name, v)]) ∈
        Calculator.calculatorCompute (pre ++ [bad] ++ post) [red] [] :=
      PyDict.dget_mem _ _ _ hdget
    obtain ⟨c, hc⟩ := List.exists_mem_of_ne_nil _
      (Calculator.entryColumns_ne_nil st.name (red.name, v) hvne)
    refine ⟨c, ?_, ?_⟩
    · exact Calculator.tableColumns_mem_of _ (st.name, [(red.name, v)]) (red.name, v) c hmem
        (List.mem_singleton_self _) hc
    · exact Calculator.entryColumns_fst st.name (red.name, v) c hc
  · rw [PyDict.dget_eq_none_iff, hkeys]
    exact hbadK

/-- C5 witness: the theorem applied to three concrete statistics of which
the second raises, and one concrete filterless reducer. -/
theorem Calculator.failing_statistic_isolated_witness :
    ((∀ st ∈ [Calculator.StatRun.mk "mod.A.std" (some [1]) false] ++
        [Calculator.StatRun.mk "mod.C.std" (some [2]) false],
      st.outcome.isSome = true ∧ st.isReduced = false) ∧
      (Calculator.StatRun.mk "mod.B.std" none false).outcome = none ∧
      (([Calculator.StatRun.mk "mod.A.std" (some [1]) false] ++
          [Calculator.StatRun.mk "mod.B.std" none false] ++
          [Calculator.StatRun.mk "mod.C.std" (some [2]) false]).map
        Calculator.StatRun.name).Nodup ∧
      (Calculator.ReducerRun.mk "red.tr" none (fun _ => some [5])).filters = none ∧
      (∀ st ∈ [Calculator.StatRun.mk "mod.A.std" (some [1]) false] ++
          [Calculator.StatRun.mk "mod.C.std" (some [2]) false],
        ∃ v, (Calculator.ReducerRun.mk "red.tr" none (fun _ => some [5])).outcome st.name =
          some v ∧ v ≠ [])) ∧
      ((∀ c ∈ Calculator.tableColumns
          (Calculator.calculatorCompute
            ([Calculator.StatRun.mk "mod.A.std" (some [1]) false] ++
              [Calculator.StatRun.mk "mod.B.std" none false] ++
              [Calculator.StatRun.mk "mod.C.std" (some [2]) false])
            [Calculator.ReducerRun.mk "red.tr" none (fun _ => some [5])] []),
        c.1 ≠ (Calculator.StatRun.mk "mod.B.std" none false).name) ∧
      (∀ st ∈ [Calculator.StatRun.mk "mod.A.std" (some [1]) false] ++
          [Calculator.StatRun.mk "mod.C.std" (some [2]) false],
        ∃ c ∈ Calculator.tableColumns
            (Calculator.calculatorCompute
              ([Calculator.StatRun.mk "mod.A.std" (some [1]) false] ++
                [Calculator.StatRun.mk "mod.B.std" none false] ++
                [Calculator.StatRun.mk "mod.C.std" (some [2]) false])
              [Calculator.ReducerRun.mk "red.tr" none (fun _ => some [5])] []),
          c.1 = st.name) ∧
      PyDict.dget
        (Calculator.calculatorCompute
          ([Calculator.StatRun.mk "mod.A.std" (some [1]) false] ++
            [Calculator.StatRun.mk "mod.B.std" none false] ++
            [Calculator.StatRun.mk "mod.C.std" (some [2]) false])
          [Calculator.ReducerRun.mk "red.tr" none (fun _ => some [5])] [])
        (Calculator.StatRun.mk "mod.B.std" none false).name = none) :=
  ⟨⟨by decide, rfl, by decide, rfl, fun st _ => ⟨[5], rfl, by decide⟩⟩,
    Calculator.failing_statistic_isolated
      [Calculator.StatRun.mk "mod.A.std" (some [1]) false]
      [Calculator.StatRun.mk "mod.C.std" (some [2]) false]
      (Calculator.StatRun.mk "mod.B.std" none false)
      (Calculator.ReducerRun.mk "red.tr" none (fun _ => some [5]))
      (by decide) rfl (by decide) rfl (fun st _ => ⟨[5], rfl, by decide⟩)⟩

/-- C6: the calculator determines a reducer's applicable statistics from
the RAW filter patterns returned by get_reducer_filters, intersecting the
pattern strings themselves with the computed statistic names, instead of
using the resolved filter set get_reducer_filtered_statistics holds.  With
statistics mod.A.std, mod.B.std and mod.A.alt and the declared filter
pattern mod.A.*, the build-time resolution yields the two mod.A names, but
the calculator applies the reducer to no statistic at all: every results
entry stays empty and the table has no columns. -/
theorem Calculator.reducer_filter_uses_raw_patterns :
    Calculator.applicableStatNames (some ["mod.A.*"])
        ["mod.A.std", "mod.B.std", "mod.A.alt"] = [] ∧
      Config.resolvedFilterSet ["mod.A.*"] ["mod.A.std", "mod.B.std", "mod.A.alt"] =
        ["mod.A.std", "mod.A.alt"] ∧
      Calculator.calculatorCompute
          [Calculator.StatRun.mk "mod.A.std" (some [1]) false,
            Calculator.StatRun.mk "mod.B.std" (some [2]) false,
            Calculator.StatRun.mk "mod.A.alt" (some [3]) false]
          [Calculator.ReducerRun.mk "red.mean" (some ["mod.A.*"]) (fun _ => some [7])] [] =
        [("mod.A.std", []), ("mod.B.std", []), ("mod.A.alt", [])] ∧
      Calculator.tableColumns
          (Calculator.calculatorCompute
            [Calculator.StatRun.mk "mod.A.std" (some [1]) false,
              Calculator.StatRun.mk "mod.B.std" (some [2]) false,
              Calculator.StatRun.mk "mod.A.alt" (some [3]) false]
            [Calculator.ReducerRun.mk "red.mean" (some ["mod.A.*"]) (fun _ => some [7])] []) =
        [] :=
  ⟨rfl, by decide, rfl, rfl⟩
